import Mathlib

/-!
Verification development for the financial QA bot's query-resolution
pipeline (the finqa_bot package: qa_chain.py and retriever.py).

The Python source is shallowly embedded: dataframes become a `Frame` of
integer-valued rows, exceptions become an explicit `Except PyErr` result,
and the remote OpenRouter client becomes an oracle `Nat -> RemoteResult`
consumed in invocation order.  Numeric cell values are modelled as `Int`
(the data under consideration is whole-dollar financial data); pandas and
numpy scalar types are abstracted to plain numbers.
-/

namespace FinQA

/-! ## String utilities (models of Python str operations) -/

/-- Model of the whitespace set stripped by Python str.strip(). -/
def pySpaceChar (c : Char) : Bool :=
  c == ' ' || c == '\t' || c == '\n' || c == '\r' || c == '\x0b' || c == '\x0c'

/-- Model of Python str.strip(): drop leading and trailing whitespace. -/
def stripList (l : List Char) : List Char :=
  ((l.dropWhile pySpaceChar).reverse.dropWhile pySpaceChar).reverse

/-- Model of Python str.lower(), restricted to ASCII case mapping. -/
def lowerStr (s : String) : String :=
  String.mk (s.data.map Char.toLower)

/-- The cache key of qa_chain.generate_answer: query.strip().lower(). -/
def normalize_key (q : String) : String :=
  String.mk ((stripList q.data).map Char.toLower)

/-- Model of Python substring containment (pat in hay). -/
def containsSub (hay pat : List Char) : Bool :=
  match hay with
  | [] => pat.isEmpty
  | _ :: t => pat.isPrefixOf hay || containsSub t pat

/-- String-level substring containment. -/
def strContains (s pat : String) : Bool :=
  containsSub s.data pat.data

/-! ## Query parsing (qa_chain.QAChain._parse_query) -/

/-- A regex word character for the ASCII fragment: matches re \w. -/
def isWordChar (c : Char) : Bool :=
  c.isAlphanum || c == '_'

/-- A word boundary holds before the match when there is no preceding
word character. -/
def boundaryOk : Option Char → Bool
  | none => true
  | some c => !isWordChar c

/-- Does the regex 20dd with word boundaries on both sides match at the
head of l, given the character just before l (none at string start)? -/
def matchAt (prev : Option Char) (l : List Char) : Bool :=
  match l with
  | c1 :: c2 :: d1 :: d2 :: rest =>
      c1 == '2' && c2 == '0' && boundaryOk prev && d1.isDigit && d2.isDigit &&
        (match rest with
         | [] => true
         | c :: _ => !isWordChar c)
  | _ => false

/-- The year value read off a successful 20dd match at the head. -/
def yearOf (l : List Char) : Int :=
  match l with
  | _ :: _ :: d1 :: d2 :: _ =>
      2000 + 10 * ((d1.toNat : Int) - 48) + ((d2.toNat : Int) - 48)
  | _ => 0

/-- Model of re.search(r'\b(20\d{2})\b', query): scan left to right for
the first boundary-delimited 20dd occurrence. -/
def searchYearAux (prev : Option Char) (l : List Char) : Option Int :=
  match l with
  | [] => none
  | c :: rest =>
      if matchAt prev (c :: rest) then some (yearOf (c :: rest))
      else searchYearAux (some c) rest

/-- Year extraction of _parse_query: first delimited 20dd in the raw
query text. -/
def parse_year (q : String) : Option Int :=
  searchYearAux none q.data

/-- Metric extraction of _parse_query: first-match-wins keyword chain on
the lowercased query. -/
def parse_metric (q : String) : Option String :=
  let ql := lowerStr q
  if strContains ql "revenue" || strContains ql "sales" then some "Revenue"
  else if strContains ql "net income" || strContains ql "net profit" ||
      strContains ql "profit" then some "Net_Income"
  else if strContains ql "expense" || strContains ql "operating expense" then
    some "Operating_Expenses"
  else if strContains ql "asset" || strContains ql "total asset" then
    some "Total_Assets"
  else none

/-- QAChain._parse_query: returns (metric, year). -/
def parse_query (q : String) : Option String × Option Int :=
  (parse_metric q, parse_year q)

/-! ### Positional specification of the year regex search -/

/-- The character immediately before position i of l (prev at i = 0). -/
def prevAt (prev : Option Char) (l : List Char) (i : Nat) : Option Char :=
  if i = 0 then prev else some (l.getD (i - 1) ' ')

/-- Boundary-delimited 20dd occurrence at position i of l. -/
def occursAt (prev : Option Char) (l : List Char) (i : Nat) : Bool :=
  matchAt (prevAt prev l i) (l.drop i)

/-- All length-4 all-digit substrings of a character list, in order. -/
def fourDigitSubs (l : List Char) : List (List Char) :=
  (List.range l.length).filterMap (fun i =>
    let sub := (l.drop i).take 4
    if sub.length == 4 && sub.all Char.isDigit then some sub else none)

/-! ## Fuzzy column matching (difflib.get_close_matches with n=1,
cutoff=0.6, as called by Retriever.find_column)

The SequenceMatcher ratio 2*M/T is handled as an exact rational (numeric
comparisons cross-multiplied); column names are short ASCII strings so no
junk heuristics of difflib apply. -/

/-- Ascending indices j in [blo, bhi) with b[j] = c (difflib's b2j lookup
restricted to the active range). -/
def bIndices (b : List Char) (c : Char) (blo bhi : Nat) : List Nat :=
  ((b.enum.filter (fun p => p.2 == c)).map (fun p => p.1)).filter
    (fun j => blo ≤ j && j < bhi)

/-- One row of SequenceMatcher.find_longest_match: fold the candidate j
positions for element a[i], extending runs recorded in j2len. -/
def flmStep (j2len : Nat → Nat) (i : Nat) (js : List Nat)
    (best : Nat × Nat × Nat) : (Nat → Nat) × (Nat × Nat × Nat) :=
  js.foldl (fun acc j =>
    let k := (if j = 0 then 0 else j2len (j - 1)) + 1
    let nj := fun x => if x = j then k else acc.1 x
    let best' := if k > acc.2.2.2 then (i + 1 - k, j + 1 - k, k) else acc.2
    (nj, best')) ((fun _ => 0), best)

/-- SequenceMatcher.find_longest_match over a[alo:ahi] and b[blo:bhi]
(no junk, so the Python post-extension loops are no-ops): returns
(besti, bestj, bestsize). -/
def flm (a b : List Char) (alo ahi blo bhi : Nat) : Nat × Nat × Nat :=
  ((List.range' alo (ahi - alo)).foldl (fun acc i =>
    flmStep acc.1 i (bIndices b (a.getD i ' ') blo bhi) acc.2)
    ((fun _ => 0), (alo, blo, 0))).2

/-- Total matched size over all matching blocks (the M of ratio = 2M/T),
following get_matching_blocks' recursive decomposition; fuel bounds the
recursion depth. -/
def matchTotalAux (a b : List Char) : Nat → Nat → Nat → Nat → Nat → Nat
  | 0, _, _, _, _ => 0
  | fuel + 1, alo, ahi, blo, bhi =>
    let r := flm a b alo ahi blo bhi
    if r.2.2 = 0 then 0
    else
      r.2.2 + matchTotalAux a b fuel alo r.1 blo r.2.1 +
        matchTotalAux a b fuel (r.1 + r.2.2) ahi (r.2.1 + r.2.2) bhi

/-- Total matched elements between two strings. -/
def matchTotal (a b : List Char) : Nat :=
  matchTotalAux a b (a.length + b.length + 1) 0 a.length 0 b.length

/-- Python code-point comparison of strings (used by heapq.nlargest on
(ratio, name) tuples for equal ratios). -/
def charListLt : List Char → List Char → Bool
  | _, [] => false
  | [], _ :: _ => true
  | x :: xs, y :: ys => x.toNat < y.toNat || (x == y && charListLt xs ys)

/-- Ratio numerator, with T = 0 treated as ratio 1 as in difflib. -/
def ratioNum (m t : Nat) : Nat := if t = 0 then 1 else 2 * m

/-- Ratio denominator, with T = 0 treated as ratio 1 as in difflib. -/
def ratioDen (t : Nat) : Nat := if t = 0 then 1 else t

/-- ratio ≥ cutoff 0.6, compared exactly. -/
def cutoffOk (m t : Nat) : Bool := 6 * ratioDen t ≤ 10 * ratioNum m t

/-- Candidate (name, M, T) cNew beats cOld when its ratio is strictly
larger, or equal with a code-point-larger name. -/
def betterCand (cNew cOld : String × Nat × Nat) : Bool :=
  let nN := ratioNum cNew.2.1 cNew.2.2
  let dN := ratioDen cNew.2.2
  let nO := ratioNum cOld.2.1 cOld.2.2
  let dO := ratioDen cOld.2.2
  nO * dN < nN * dO || (nN * dO == nO * dN && charListLt cOld.1.data cNew.1.data)

/-- difflib.get_close_matches(word, cols, n=1, cutoff=0.6), returning the
single best candidate if any clears the cutoff. -/
def get_close_match (word : String) (cols : List String) : Option String :=
  let cands := cols.filterMap (fun x =>
    let m := matchTotal x.data word.data
    let t := x.data.length + word.data.length
    if cutoffOk m t then some (x, m, t) else none)
  (cands.foldl (fun best c =>
    match best with
    | none => some c
    | some b => if betterCand c b then some c else some b) none).map (fun c => c.1)

/-! ## The dataset and the Retriever (retriever.py) -/

/-- A loaded dataframe: ordered column names and ordered rows of integer
cell values (each row aligned with cols positionally). -/
structure Frame where
  cols : List String
  rows : List (List Int)
deriving DecidableEq

/-- Python exception classes distinguished by the pipeline. -/
inductive PyErr
  | valueError
  | typeError
  | indexError
  | http429
  | httpOther
deriving DecidableEq

/-- The values of the column at positional index idx, in dataset row
order. -/
def colValsAt (f : Frame) (idx : Nat) : List Int :=
  f.rows.map (fun r => r.getD idx 0)

/-- Retriever.find_column: case-insensitive exact match first, then the
difflib fuzzy match. -/
def find_column (f : Frame) (keyword : String) : Option String :=
  match f.cols.find? (fun c => lowerStr c == lowerStr keyword) with
  | some c => some c
  | none => get_close_match keyword f.cols

/-- The fixed temporal-column candidate names, in priority order. -/
def temporalCandidates : List String := ["Year", "year", "DATE", "Date"]

/-- The temporal column chosen by Retriever.filter_by_year. -/
def firstTemporalCol (f : Frame) : Option String :=
  temporalCandidates.find? (fun c => f.cols.contains c)

/-- Retriever.filter_by_year: rows whose temporal cell equals year, in
dataset row order; ValueError when no temporal candidate column exists. -/
def filter_by_year (f : Frame) (year : Int) : Except PyErr (List (List Int)) :=
  match firstTemporalCol f with
  | none => .error .valueError
  | some tc =>
      let tidx := f.cols.findIdx (· == tc)
      .ok (f.rows.filter (fun r => r.getD tidx 0 == year))

instance exceptDecEq {ε α : Type} [DecidableEq ε] [DecidableEq α] :
    DecidableEq (Except ε α) := fun x y =>
  match x, y with
  | .ok a, .ok b =>
      if h : a = b then .isTrue (congrArg Except.ok h)
      else .isFalse (fun hh => h (Except.ok.inj hh))
  | .error a, .error b =>
      if h : a = b then .isTrue (congrArg Except.error h)
      else .isFalse (fun hh => h (Except.error.inj hh))
  | .ok _, .error _ => .isFalse (fun hh => Except.noConfusion hh)
  | .error _, .ok _ => .isFalse (fun hh => Except.noConfusion hh)

/-- A retrieved value: a single scalar or an ordered series. -/
inductive Value
  | scalar (v : Int)
  | series (vals : List Int)
deriving DecidableEq

/-- Retriever.get_value: resolve the column, then no year → full column;
year with no matching rows → none; exactly one row → scalar; several →
series of those rows. -/
def get_value (f : Frame) (keyword : String) (year : Option Int) :
    Except PyErr (Option Value) :=
  match find_column f keyword with
  | none => .ok none
  | some col =>
    let idx := f.cols.findIdx (· == col)
    match year with
    | none => .ok (some (.series (colValsAt f idx)))
    | some y =>
      match filter_by_year f y with
      | .error e => .error e
      | .ok filtered =>
        if filtered.isEmpty then .ok none
        else
          let res := filtered.map (fun r => r.getD idx 0)
          if res.length == 1 then .ok (some (.scalar (res.headD 0)))
          else .ok (some (.series res))

/-! ## Number rendering (Python format specs :, and :,.0f on the
integer-valued data) -/

/-- Insert thousands separators into a reversed digit list. -/
def insertCommas (l : List Char) : List Char :=
  match l with
  | a :: b :: c :: d :: rest => a :: b :: c :: ',' :: insertCommas (d :: rest)
  | _ => l

/-- Thousands-grouped decimal rendering of a natural number. -/
def natComma (n : Nat) : String :=
  String.mk (insertCommas (toString n).data.reverse).reverse

/-- Thousands-grouped decimal rendering of an integer. -/
def intComma (n : Int) : String :=
  (if n < 0 then "-" else "") ++ natComma n.natAbs

/-- Round n/d (with d > 0) half to even, the rounding used by Python
number formatting, on the exact fraction. -/
def roundHalfEvenNat (n d : Nat) : Nat :=
  let f := n / d
  let r := n % d
  if d < 2 * r then f + 1
  else if 2 * r < d then f
  else if f % 2 = 0 then f else f + 1

/-- Model of the format spec .1f applied to the absolute value of the
exact fraction num/den (the source formats a Python float; the rounding
here is taken on the exact value). -/
def fmtPctAbs (num den : Int) : String :=
  let n := roundHalfEvenNat (num.natAbs * 10) den.natAbs
  toString (n / 10) ++ "." ++ toString (n % 10)

/-! ## Answer formatting (qa_chain.QAChain._format_answer) -/

/-- Metric name with underscores shown as spaces. -/
def metricDisplay (m : String) : String :=
  String.mk (m.data.map (fun c => if c == '_' then ' ' else c))

/-- The superlative keywords for a maximum request. -/
def bestWords : List String :=
  ["best", "highest", "maximum", "peak", "most", "top"]

/-- The superlative keywords for a minimum request. -/
def worstWords : List String :=
  ["worst", "lowest", "minimum", "least", "bottom"]

/-- any(word in ql for word in ws). -/
def containsAnyWord (ql : String) (ws : List String) : Bool :=
  ws.any (fun w => strContains ql w)

/-- Maximum of a list of integers (pandas Series.max on the values). -/
def listMax (l : List Int) : Int := l.foldl max (l.headD 0)

/-- Minimum of a list of integers (pandas Series.min on the values). -/
def listMin (l : List Int) : Int := l.foldl min (l.headD 0)

/-- The recent-values block of the trend answer: one (year, value) line
per pair, joined with the source's newline-and-indent separator. -/
def seriesTailStr (pairs : List (Int × Int)) : String :=
  String.intercalate "\n      " (pairs.map (fun p => toString p.1 ++ ": $" ++ intComma p.2))

/-- QAChain._format_answer.  A series value is re-indexed by the values
of the FIRST dataset column (pandas raises ValueError when the lengths
differ, and IndexError when there is no column at all); a scalar value is
a number (int or float) and takes the single-value sentence.  Note
`if year:` in the source also skips the year clause for year 0. -/
def format_answer (f : Frame) (metric : String) (value : Value)
    (year : Option Int) (q : String) : Except PyErr String :=
  let md := metricDisplay metric
  let ql := lowerStr q
  match value with
  | .series vals =>
    if vals.length == 0 then .ok ("No data available for " ++ md ++ ".")
    else
      match f.cols.head? with
      | none => .error .indexError
      | some _ =>
        let yearVals := colValsAt f 0
        if vals.length != yearVals.length then .error .valueError
        else
          let pairs := yearVals.zip vals
          let askBest := containsAnyWord ql bestWords
          let askWorst := containsAnyWord ql worstWords
          let askWhich := strContains ql "which year" || strContains ql "what year" ||
            strContains ql "when was"
          if askBest || (askWhich && askBest) then
            let m := listMax vals
            let ys := (pairs.filter (fun p => p.2 == m)).map (fun p => p.1)
            .ok ("The best year(s) for " ++ md ++ " was " ++
              String.intercalate ", " (ys.map toString) ++ " with $" ++ intComma m ++ ".")
          else if askWorst || (askWhich && askWorst) then
            let m := listMin vals
            let ys := (pairs.filter (fun p => p.2 == m)).map (fun p => p.1)
            .ok ("The worst year(s) for " ++ md ++ " was " ++
              String.intercalate ", " (ys.map toString) ++ " with $" ++ intComma m ++ ".")
          else
            let first := vals.headD 0
            let last := vals.getLastD 0
            let dir := if 0 < (last - first) * first then "increased" else "decreased"
            let pctStr := if first = 0 then "0.0" else fmtPctAbs ((last - first) * 100) first
            let recent := pairs.drop (pairs.length - 5)
            .ok (md ++ " " ++ dir ++ " by " ++ pctStr ++ "% from $" ++
              intComma first ++ " to $" ++ intComma last ++
              ".\n      Recent values:\n      " ++ seriesTailStr recent)
  | .scalar v =>
    match year with
    | some y =>
        if y == 0 then .ok ("The " ++ md ++ " is $" ++ intComma v ++ ".")
        else .ok ("The " ++ md ++ " in " ++ toString y ++ " was $" ++ intComma v ++ ".")
    | none => .ok ("The " ++ md ++ " is $" ++ intComma v ++ ".")

/-- QAChain._generate_rule_based_answer. -/
def generate_rule_based_answer (f : Frame) (q : String) : Except PyErr String :=
  match parse_query q with
  | (none, _) =>
      .ok "I couldn't understand what metric you're asking about. Try asking about revenue, net income, expenses, or assets."
  | (some metric, year) =>
    match get_value f metric year with
    | .error e => .error e
    | .ok none =>
        .ok ("I couldn't find data for " ++ metric ++
          (match year with
           | some y => if y == 0 then "" else " in " ++ toString y
           | none => "") ++ ".")
    | .ok (some v) => format_answer f metric v year q

/-! ## The QA orchestrator (qa_chain.QAChain.generate_answer) -/

/-- Result of one remote OpenRouter invocation: reply text, an HTTP 429
raised by raise_for_status, or any other transport/HTTP failure. -/
inductive RemoteResult
  | ok (text : String)
  | rateLimited
  | failure
deriving DecidableEq

/-- QAChain instance state: the dataset handle, the configuration read at
construction, the answer cache, the sticky disable flag, and a count of
remote invocations made so far (the oracle index). -/
structure Chain where
  frame : Frame
  use_llm : Bool
  hasKey : Bool
  cache : List (String × String)
  llm_disabled : Bool
  remoteCalls : Nat
deriving DecidableEq

/-- Dictionary lookup in the answer cache (exact key equality). -/
def lookupCache (cache : List (String × String)) (key : String) : Option String :=
  (cache.find? (fun p => p.1 == key)).map (fun p => p.2)

/-- The fixed recent-years probe of the no-year context loop. -/
def contextYears : List Int := [2023, 2022, 2021, 2020, 2019]

/-- One iteration of the recent-years context loop. -/
def contextStep (f : Frame) (metric : String) (acc : Except PyErr String)
    (y : Int) : Except PyErr String :=
  match acc with
  | .error e => .error e
  | .ok s =>
    match get_value f metric (some y) with
    | .error e => .error e
    | .ok none => .ok s
    | .ok (some (.scalar v)) =>
        .ok (s ++ metric ++ " in " ++ toString y ++ ": $" ++ intComma v ++ "\n")
    | .ok (some (.series _)) => .error .typeError

/-- The data_context string assembled by _generate_openrouter_answer
before the HTTP call.  A series value reaching an f-string number format
raises TypeError; get_value may raise ValueError (no temporal column). -/
def build_data_context (f : Frame) (q : String) : Except PyErr String :=
  match parse_query q with
  | (some metric, some year) =>
    match get_value f metric (some year) with
    | .error e => .error e
    | .ok none => .ok "No specific data found for this query."
    | .ok (some (.scalar v)) =>
        .ok (metric ++ " in " ++ toString year ++ ": $" ++ intComma v)
    | .ok (some (.series _)) => .error .typeError
  | (some metric, none) =>
    match contextYears.foldl (contextStep f metric) (.ok "") with
    | .error e => .error e
    | .ok s => .ok (if s == "" then "No specific data found for this query." else s)
  | (none, _) => .ok "No specific data found for this query."

/-- QAChain._generate_openrouter_answer: build the context, then make one
remote invocation (consuming the oracle at the current call count) and
strip the reply text. -/
def generate_openrouter_answer (env : Nat → RemoteResult) (c : Chain)
    (q : String) : Except PyErr String × Chain :=
  match build_data_context c.frame q with
  | .error e => (.error e, c)
  | .ok _ =>
    let c' := { c with remoteCalls := c.remoteCalls + 1 }
    match env c.remoteCalls with
    | .ok text => (.ok (String.mk (stripList text.data)), c')
    | .rateLimited => (.error .http429, c')
    | .failure => (.error .httpOther, c')

/-- The fallback tail of generate_answer: run the rule-based answer and
cache it under the normalized key; a raised error propagates with no
cache write. -/
def finishRule (c : Chain) (key q : String) : Except PyErr String × Chain :=
  match generate_rule_based_answer c.frame q with
  | .ok ans => (.ok ans, { c with cache := (key, ans) :: c.cache })
  | .error e => (.error e, c)

/-- QAChain.generate_answer: cache lookup on the normalized key, then the
remote path when enabled (HTTP 429 sets the sticky disable flag), then
the rule-based fallback. -/
def generate_answer (env : Nat → RemoteResult) (c : Chain) (q : String) :
    Except PyErr String × Chain :=
  let key := normalize_key q
  match lookupCache c.cache key with
  | some a => (.ok a, c)
  | none =>
    if c.use_llm && !c.llm_disabled && c.hasKey then
      let p := generate_openrouter_answer env c q
      match p.1 with
      | .ok ans => (.ok ans, { p.2 with cache := (key, ans) :: p.2.cache })
      | .error e =>
          finishRule (if e == .http429 then { p.2 with llm_disabled := true } else p.2)
            key q
    else finishRule c key q

/-- Iterated generate_answer over a list of questions (app.ask_batch is
sequential iteration on one instance). -/
def runCalls (env : Nat → RemoteResult) (c : Chain) (qs : List String) : Chain :=
  qs.foldl (fun s q => (generate_answer env s q).2) c

/-- Does an Except hold a success value? -/
def isOkE {ε α : Type} (x : Except ε α) : Bool :=
  match x with
  | .ok _ => true
  | .error _ => false

/-- The remote path is open for this call: remote enabled, key present,
flag clear, and the cache misses. -/
def llmAttempt (c : Chain) (q : String) : Bool :=
  c.use_llm && !c.llm_disabled && c.hasKey &&
    (lookupCache c.cache (normalize_key q)).isNone

/-- A remote HTTP request is actually constructed and sent during this
call: the remote path is open and the context assembly did not raise. -/
def remoteInvoked (c : Chain) (q : String) : Bool :=
  llmAttempt c q && isOkE (build_data_context c.frame q)

/-- Is a remote outcome the distinguished HTTP 429 rate-limit signal? -/
def isRateLimited : RemoteResult → Bool
  | .rateLimited => true
  | _ => false

/-- The rows whose temporal cell (column tc) equals y, in dataset row
order: the reference description of the year filter. -/
def yearMatches (f : Frame) (tc : String) (y : Int) : List (List Int) :=
  f.rows.filter (fun r => r.getD (f.cols.findIdx (fun x => x == tc)) 0 == y)

/-- The cell of row r under column col. -/
def colProj (f : Frame) (col : String) (r : List Int) : Int :=
  r.getD (f.cols.findIdx (fun x => x == col)) 0

/-! ## Concrete fixtures used to exercise the model -/

/-- The five-year sample dataset of the spec's acceptance example:
years 2019..2023 with Revenue 100000, 200000, 150000, 300000, 250000. -/
def sampleFrame : Frame :=
  ⟨["Year", "Revenue"],
   [[2019, 100000], [2020, 200000], [2021, 150000], [2022, 300000], [2023, 250000]]⟩

/-- A fresh QAChain constructed with use_llm=False and no API key: the
rule-based-only configuration. -/
def ruleOnlyChain (f : Frame) : Chain :=
  { frame := f, use_llm := false, hasKey := false, cache := [],
    llm_disabled := false, remoteCalls := 0 }

/-- A remote oracle that always yields the same outcome. -/
def envConst (r : RemoteResult) : Nat → RemoteResult := fun _ => r

/-- An instance whose rate-limit flag is already set (as after a 429). -/
def disabledChain : Chain :=
  { frame := sampleFrame, use_llm := true, hasKey := true, cache := [],
    llm_disabled := true, remoteCalls := 3 }

/-- An LLM-enabled instance holding one cached answer. -/
def cachedChain : Chain :=
  { frame := sampleFrame, use_llm := true, hasKey := true,
    cache := [("revenue in 2020", "cached text")],
    llm_disabled := false, remoteCalls := 0 }

/-! ## Supporting lemmas -/

theorem colValsAt_length (f : Frame) (idx : Nat) :
    (colValsAt f idx).length = f.rows.length := by
  simp [colValsAt]

theorem finishRule_fst (c : Chain) (k q : String) :
    (finishRule c k q).1 = generate_rule_based_answer c.frame q := by
  unfold finishRule
  cases generate_rule_based_answer c.frame q <;> rfl

theorem finishRule_llm_disabled (c : Chain) (k q : String) :
    (finishRule c k q).2.llm_disabled = c.llm_disabled := by
  unfold finishRule
  cases generate_rule_based_answer c.frame q <;> rfl

theorem finishRule_remoteCalls (c : Chain) (k q : String) :
    (finishRule c k q).2.remoteCalls = c.remoteCalls := by
  unfold finishRule
  cases generate_rule_based_answer c.frame q <;> rfl

theorem finishRule_ok (c : Chain) (k q a : String)
    (h : generate_rule_based_answer c.frame q = .ok a) :
    finishRule c k q = (.ok a, { c with cache := (k, a) :: c.cache }) := by
  unfold finishRule; rw [h]

theorem finishRule_err (c : Chain) (k q : String) (e : PyErr)
    (h : generate_rule_based_answer c.frame q = .error e) :
    finishRule c k q = (.error e, c) := by
  unfold finishRule; rw [h]

theorem lookupCache_cons_self (l : List (String × String)) (k a : String) :
    lookupCache ((k, a) :: l) k = some a := by
  simp [lookupCache, List.find?]

theorem filter_by_year_err (f : Frame) (y : Int) (e : PyErr)
    (h : filter_by_year f y = .error e) : e = .valueError := by
  unfold filter_by_year at h
  cases htc : firstTemporalCol f <;> rw [htc] at h
  · injection h with h'; exact h'.symm
  · exact absurd h (by simp)

theorem get_value_err (f : Frame) (kw : String) (yr : Option Int) (e : PyErr)
    (h : get_value f kw yr = .error e) : e = .valueError := by
  cases hc : find_column f kw
  · simp [get_value, hc] at h
  · cases yr with
    | none => simp [get_value, hc] at h
    | some y =>
      cases hf : filter_by_year f y with
      | error e0 =>
        have he : e0 = e := by simp [get_value, hc, hf] at h; exact h
        exact he ▸ filter_by_year_err f y e0 hf
      | ok filtered =>
        simp [get_value, hc, hf] at h
        split at h
        · simp at h
        · split at h <;> simp at h

theorem isOkE_iff {ε α : Type} (x : Except ε α) : isOkE x = true ↔ ∃ a, x = .ok a := by
  cases x <;> simp [isOkE]

theorem contextStep_err (f : Frame) (m : String) (acc : Except PyErr String)
    (y : Int) (e : PyErr) (h : contextStep f m acc y = .error e) :
    acc = .error e ∨ e = .valueError ∨ e = .typeError := by
  cases acc with
  | error e0 =>
    left
    have he : e0 = e := by simp [contextStep] at h; exact h
    rw [he]
  | ok s =>
    right
    cases hg : get_value f m (some y) with
    | error e1 =>
      left
      have he : e1 = e := by simp [contextStep, hg] at h; exact h
      exact he ▸ get_value_err f m (some y) e1 hg
    | ok v =>
      cases v with
      | none => simp [contextStep, hg] at h
      | some w =>
        cases w with
        | scalar x => simp [contextStep, hg] at h
        | series l =>
          right
          have he : PyErr.typeError = e := by simp [contextStep, hg] at h; exact h
          exact he.symm

theorem ctx_fold_err (f : Frame) (m : String) :
    ∀ (ys : List Int) (acc : Except PyErr String) (e : PyErr),
      ys.foldl (contextStep f m) acc = .error e →
      acc = .error e ∨ e = .valueError ∨ e = .typeError := by
  intro ys
  induction ys with
  | nil =>
    intro acc e h
    left
    exact h
  | cons y t ih =>
    intro acc e h
    rcases ih (contextStep f m acc y) e h with h1 | h2
    · rcases contextStep_err f m acc y e h1 with h3 | h4
      · left; exact h3
      · right; exact h4
    · right; exact h2

theorem build_err (f : Frame) (q : String) (e : PyErr)
    (h : build_data_context f q = .error e) :
    e = .valueError ∨ e = .typeError := by
  cases hm : parse_metric q with
  | none => simp [build_data_context, parse_query, hm] at h
  | some m =>
    cases hy : parse_year q with
    | some y =>
      cases hg : get_value f m (some y) with
      | error e1 =>
        have he : e1 = e := by
          simp [build_data_context, parse_query, hm, hy, hg] at h; exact h
        exact Or.inl (he ▸ get_value_err f m (some y) e1 hg)
      | ok v =>
        cases v with
        | none => simp [build_data_context, parse_query, hm, hy, hg] at h
        | some w =>
          cases w with
          | scalar x => simp [build_data_context, parse_query, hm, hy, hg] at h
          | series l =>
            right
            have he : PyErr.typeError = e := by
              simp [build_data_context, parse_query, hm, hy, hg] at h; exact h
            exact he.symm
    | none =>
      cases hfold : contextYears.foldl (contextStep f m) (.ok "") with
      | error e1 =>
        have he : e1 = e := by
          simp [build_data_context, parse_query, hm, hy, hfold] at h; exact h
        rcases ctx_fold_err f m contextYears (.ok "") e1 hfold with h1 | h2
        · exact absurd h1 (by simp)
        · exact he ▸ h2
      | ok s => simp [build_data_context, parse_query, hm, hy, hfold] at h

theorem foldl_pick_mem (g : (String × Nat × Nat) → (String × Nat × Nat) → Bool) :
    ∀ (l : List (String × Nat × Nat)) (acc : Option (String × Nat × Nat))
      (x : String × Nat × Nat),
      l.foldl (fun best c => match best with
        | none => some c
        | some b => if g c b then some c else some b) acc = some x →
      x ∈ l ∨ acc = some x := by
  intro l
  induction l with
  | nil =>
    intro acc x h
    right
    exact h
  | cons c t ih =>
    intro acc x h
    rcases ih _ x h with h3 | h4
    · left; exact List.mem_cons_of_mem c h3
    · cases acc with
      | none =>
        left
        have hx : c = x := by simpa using h4
        exact hx ▸ List.mem_cons_self c t
      | some b =>
        by_cases hg : g c b
        · left
          have hx : c = x := by simp [hg] at h4; exact h4
          exact hx ▸ List.mem_cons_self c t
        · right
          have hx : b = x := by simp [hg] at h4; exact h4
          rw [hx]

theorem get_close_match_mem (w : String) (cols : List String) (x : String)
    (h : get_close_match w cols = some x) : x ∈ cols := by
  unfold get_close_match at h
  rw [Option.map_eq_some'] at h
  obtain ⟨c, hc, hcx⟩ := h
  rcases foldl_pick_mem betterCand _ none c hc with hmem | habs
  · rw [List.mem_filterMap] at hmem
    obtain ⟨a, ha, hfa⟩ := hmem
    dsimp only at hfa
    split at hfa
    · injection hfa with h'
      rw [← hcx, ← h']
      exact ha
    · exact absurd hfa (by simp)
  · exact absurd habs (by simp)

theorem find_column_mem (f : Frame) (kw col : String)
    (h : find_column f kw = some col) : col ∈ f.cols := by
  cases hf : f.cols.find? (fun c => lowerStr c == lowerStr kw)
  · simp only [find_column, hf] at h
    exact get_close_match_mem kw f.cols col h
  · simp only [find_column, hf, Option.some.injEq] at h
    exact h ▸ List.mem_of_find?_eq_some hf

theorem format_answer_scalar_isOk (f : Frame) (metric : String) (v : Int)
    (year : Option Int) (q : String) :
    isOkE (format_answer f metric (.scalar v) year q) = true := by
  cases year with
  | none => rfl
  | some y =>
    simp only [format_answer]
    split <;> rfl

theorem format_answer_series_isOk (f : Frame) (metric : String) (vals : List Int)
    (year : Option Int) (q : String) (hlen : vals.length = f.rows.length)
    (hcols : f.cols ≠ []) :
    isOkE (format_answer f metric (.series vals) year q) = true := by
  simp only [format_answer]
  split
  · rfl
  · cases hcl : f.cols with
    | nil => exact absurd hcl hcols
    | cons c0 ct =>
      simp only [hcl, List.head?_cons]
      have hb : (vals.length != (colValsAt f 0).length) = false := by
        simp [colValsAt_length, hlen]
      rw [hb]
      simp only [Bool.false_eq_true, if_false]
      split
      · rfl
      · split <;> rfl

theorem grba_isOk_metric_none (f : Frame) (q : String)
    (hm : parse_metric q = none) :
    isOkE (generate_rule_based_answer f q) = true := by
  simp [generate_rule_based_answer, parse_query, hm, isOkE]

theorem grba_isOk_year_none (f : Frame) (q : String)
    (hy : parse_year q = none) :
    isOkE (generate_rule_based_answer f q) = true := by
  cases hm : parse_metric q with
  | none => exact grba_isOk_metric_none f q hm
  | some m =>
    cases hc : find_column f m with
    | none =>
      simp [generate_rule_based_answer, parse_query, hm, hy, get_value, hc, isOkE]
    | some col =>
      have hok : get_value f m none =
          .ok (some (.series (colValsAt f (f.cols.findIdx (fun x => x == col))))) := by
        simp [get_value, hc]
      have hser := format_answer_series_isOk f m
        (colValsAt f (f.cols.findIdx (fun x => x == col))) none q
        (colValsAt_length f _)
        (List.ne_nil_of_mem (find_column_mem f m col hc))
      simp only [generate_rule_based_answer, parse_query, hm, hy, hok]
      exact hser

theorem grba_isOk_of_ctx (f : Frame) (q : String)
    (hctx : isOkE (build_data_context f q) = true) :
    isOkE (generate_rule_based_answer f q) = true := by
  cases hm : parse_metric q with
  | none => exact grba_isOk_metric_none f q hm
  | some m =>
    cases hy : parse_year q with
    | none => exact grba_isOk_year_none f q hy
    | some y =>
      cases hg : get_value f m (some y) with
      | error e =>
        exact absurd hctx
          (by simp [build_data_context, parse_query, hm, hy, hg, isOkE])
      | ok v =>
        cases v with
        | none => simp [generate_rule_based_answer, parse_query, hm, hy, hg, isOkE]
        | some w =>
          cases w with
          | scalar x =>
            have hs := format_answer_scalar_isOk f m x (some y) q
            simp only [generate_rule_based_answer, parse_query, hm, hy, hg]
            exact hs
          | series l =>
            exact absurd hctx
              (by simp [build_data_context, parse_query, hm, hy, hg, isOkE])

theorem ga_cache_hit (env : Nat → RemoteResult) (c : Chain) (q a : String)
    (h : lookupCache c.cache (normalize_key q) = some a) :
    generate_answer env c q = (.ok a, c) := by
  simp [generate_answer, h]

theorem ga_notAttempt (env : Nat → RemoteResult) (c : Chain) (q : String)
    (hcond : (c.use_llm && !c.llm_disabled && c.hasKey) = false)
    (hmiss : lookupCache c.cache (normalize_key q) = none) :
    generate_answer env c q = finishRule c (normalize_key q) q := by
  simp [generate_answer, hmiss, hcond]

theorem goa_ctx_err (env : Nat → RemoteResult) (c : Chain) (q : String) (e : PyErr)
    (hb : build_data_context c.frame q = .error e) :
    generate_openrouter_answer env c q = (.error e, c) := by
  simp [generate_openrouter_answer, hb]

theorem goa_ctx_ok (env : Nat → RemoteResult) (c : Chain) (q s : String)
    (hb : build_data_context c.frame q = .ok s) :
    generate_openrouter_answer env c q =
      (match env c.remoteCalls with
       | .ok t => .ok (String.mk (stripList t.data))
       | .rateLimited => .error .http429
       | .failure => .error .httpOther,
       { c with remoteCalls := c.remoteCalls + 1 }) := by
  simp only [generate_openrouter_answer, hb]
  cases env c.remoteCalls <;> rfl

theorem ga_attempt (env : Nat → RemoteResult) (c : Chain) (q : String)
    (hcond : (c.use_llm && !c.llm_disabled && c.hasKey) = true)
    (hmiss : lookupCache c.cache (normalize_key q) = none) :
    generate_answer env c q =
      (match (generate_openrouter_answer env c q).1 with
       | .ok ans =>
           (.ok ans, { (generate_openrouter_answer env c q).2 with
             cache := (normalize_key q, ans) ::
               (generate_openrouter_answer env c q).2.cache })
       | .error e =>
           finishRule
             (if e == .http429 then
               { (generate_openrouter_answer env c q).2 with llm_disabled := true }
              else (generate_openrouter_answer env c q).2)
             (normalize_key q) q) := by
  simp [generate_answer, hmiss, hcond]

theorem finishRule_ok_cached (c : Chain) (k q a : String) (c' : Chain)
    (h : finishRule c k q = (.ok a, c')) : lookupCache c'.cache k = some a := by
  cases hr : generate_rule_based_answer c.frame q with
  | ok b =>
    rw [finishRule_ok c k q b hr] at h
    have h1 := congrArg Prod.fst h
    have h2 := congrArg Prod.snd h
    simp at h1 h2
    rw [← h2, h1]
    exact lookupCache_cons_self _ _ _
  | error e =>
    rw [finishRule_err c k q e hr] at h
    have h1 := congrArg Prod.fst h
    simp at h1

theorem finishRule_err_state (c : Chain) (k q : String) (e : PyErr) (c' : Chain)
    (h : finishRule c k q = (.error e, c')) :
    c' = c ∧ generate_rule_based_answer c.frame q = .error e := by
  cases hr : generate_rule_based_answer c.frame q with
  | ok b =>
    rw [finishRule_ok c k q b hr] at h
    have h1 := congrArg Prod.fst h
    simp at h1
  | error e2 =>
    rw [finishRule_err c k q e2 hr] at h
    have h1 := congrArg Prod.fst h
    have h2 := congrArg Prod.snd h
    simp at h1 h2
    subst h1
    exact ⟨h2.symm, rfl⟩

theorem ga_ok_cached (env : Nat → RemoteResult) (c : Chain) (q a : String)
    (c' : Chain) (h : generate_answer env c q = (.ok a, c')) :
    lookupCache c'.cache (normalize_key q) = some a := by
  cases hm : lookupCache c.cache (normalize_key q) with
  | some b =>
    rw [ga_cache_hit env c q b hm] at h
    have h1 := congrArg Prod.fst h
    have h2 := congrArg Prod.snd h
    simp at h1 h2
    rw [← h2, hm, h1]
  | none =>
    by_cases hcond : (c.use_llm && !c.llm_disabled && c.hasKey) = true
    · rw [ga_attempt env c q hcond hm] at h
      cases hp : (generate_openrouter_answer env c q).1 with
      | ok ans =>
        simp only [hp] at h
        have h1 := congrArg Prod.fst h
        have h2 := congrArg Prod.snd h
        simp at h1 h2
        rw [← h2, h1]
        exact lookupCache_cons_self _ _ _
      | error e =>
        simp only [hp] at h
        exact finishRule_ok_cached _ _ _ _ _ h
    · have hc2 : (c.use_llm && !c.llm_disabled && c.hasKey) = false := by
        simpa using hcond
      rw [ga_notAttempt env c q hc2 hm] at h
      exact finishRule_ok_cached _ _ _ _ _ h

theorem ga_err_state (env : Nat → RemoteResult) (c : Chain) (q : String)
    (e : PyErr) (c' : Chain) (h : generate_answer env c q = (.error e, c')) :
    c' = c := by
  cases hm : lookupCache c.cache (normalize_key q) with
  | some b =>
    rw [ga_cache_hit env c q b hm] at h
    have h1 := congrArg Prod.fst h
    simp at h1
  | none =>
    by_cases hcond : (c.use_llm && !c.llm_disabled && c.hasKey) = true
    · rw [ga_attempt env c q hcond hm] at h
      cases hb : build_data_context c.frame q with
      | error e0 =>
        rw [goa_ctx_err env c q e0 hb] at h
        dsimp only at h
        have h429 : (e0 == PyErr.http429) = false := by
          rcases build_err c.frame q e0 hb with h0 | h0 <;> subst h0 <;> rfl
        rw [h429] at h
        simp only [Bool.false_eq_true, if_false] at h
        exact (finishRule_err_state _ _ _ _ _ h).1
      | ok s =>
        rw [goa_ctx_ok env c q s hb] at h
        dsimp only at h
        have hok := grba_isOk_of_ctx c.frame q (by rw [hb]; rfl)
        rw [isOkE_iff] at hok
        obtain ⟨b, hbb⟩ := hok
        cases hrr : env c.remoteCalls with
        | ok t =>
          simp only [hrr] at h
          have h1 := congrArg Prod.fst h
          simp at h1
        | rateLimited =>
          simp only [hrr] at h
          simp at h
          have hfe := finishRule_err_state _ _ _ _ _ h
          have h2 : generate_rule_based_answer c.frame q = .error e := hfe.2
          rw [hbb] at h2
          simp at h2
        | failure =>
          simp only [hrr] at h
          simp at h
          have hfe := finishRule_err_state _ _ _ _ _ h
          have h2 : generate_rule_based_answer c.frame q = .error e := hfe.2
          rw [hbb] at h2
          simp at h2
    · have hc2 : (c.use_llm && !c.llm_disabled && c.hasKey) = false := by
        simpa using hcond
      rw [ga_notAttempt env c q hc2 hm] at h
      exact (finishRule_err_state _ _ _ _ _ h).1

theorem ga_remoteCalls_le (env : Nat → RemoteResult) (c : Chain) (q : String) :
    (generate_answer env c q).2.remoteCalls ≤ c.remoteCalls + 1 := by
  cases hm : lookupCache c.cache (normalize_key q) with
  | some b =>
    rw [ga_cache_hit env c q b hm]
    exact Nat.le_succ _
  | none =>
    by_cases hcond : (c.use_llm && !c.llm_disabled && c.hasKey) = true
    · rw [ga_attempt env c q hcond hm]
      cases hb : build_data_context c.frame q with
      | error e0 =>
        rw [goa_ctx_err env c q e0 hb]
        dsimp only
        rw [finishRule_remoteCalls]
        split <;> exact Nat.le_succ _
      | ok s =>
        rw [goa_ctx_ok env c q s hb]
        dsimp only
        cases hrr : env c.remoteCalls with
        | ok t => exact Nat.le_refl _
        | rateLimited =>
          rw [finishRule_remoteCalls]
          split <;> exact Nat.le_refl _
        | failure =>
          rw [finishRule_remoteCalls]
          split <;> exact Nat.le_refl _
    · have hc2 : (c.use_llm && !c.llm_disabled && c.hasKey) = false := by
        simpa using hcond
      rw [ga_notAttempt env c q hc2 hm]
      rw [finishRule_remoteCalls]
      exact Nat.le_succ _

theorem ga_disabled_eq (env : Nat → RemoteResult) (c : Chain) (q : String) :
    (generate_answer env c q).2.llm_disabled =
      (c.llm_disabled || (remoteInvoked c q && isRateLimited (env c.remoteCalls))) := by
  cases hm : lookupCache c.cache (normalize_key q) with
  | some b =>
    rw [ga_cache_hit env c q b hm]
    simp [remoteInvoked, llmAttempt, hm]
  | none =>
    by_cases hcond : (c.use_llm && !c.llm_disabled && c.hasKey) = true
    · have hdis : c.llm_disabled = false := by
        rcases Bool.and_eq_true_iff.mp hcond with ⟨h1, _⟩
        rcases Bool.and_eq_true_iff.mp h1 with ⟨_, h2⟩
        simpa using h2
      rw [ga_attempt env c q hcond hm]
      cases hb : build_data_context c.frame q with
      | error e0 =>
        rw [goa_ctx_err env c q e0 hb]
        dsimp only
        have h429 : (e0 == PyErr.http429) = false := by
          rcases build_err c.frame q e0 hb with h0 | h0 <;> subst h0 <;> rfl
        rw [h429]
        simp only [Bool.false_eq_true, if_false]
        rw [finishRule_llm_disabled]
        simp [remoteInvoked, hb, isOkE, hdis]
      | ok s =>
        rw [goa_ctx_ok env c q s hb]
        dsimp only
        have hri : remoteInvoked c q = true := by
          simp [remoteInvoked, llmAttempt, hm, hb, isOkE, hcond]
        cases hrr : env c.remoteCalls with
        | ok t => simp [hri, hdis, isRateLimited]
        | rateLimited =>
          simp only [show (PyErr.http429 == PyErr.http429) = true from rfl, if_true]
          rw [finishRule_llm_disabled]
          simp [hri, isRateLimited]
        | failure =>
          simp only [show (PyErr.httpOther == PyErr.http429) = false from rfl,
            Bool.false_eq_true, if_false]
          rw [finishRule_llm_disabled]
          simp [hri, hdis, isRateLimited]
    · have hc2 : (c.use_llm && !c.llm_disabled && c.hasKey) = false := by
        simpa using hcond
      rw [ga_notAttempt env c q hc2 hm]
      rw [finishRule_llm_disabled]
      simp [remoteInvoked, llmAttempt, hc2]

theorem ga_disabled_step (env : Nat → RemoteResult) (c : Chain) (q : String)
    (h : c.llm_disabled = true) :
    (generate_answer env c q).2.remoteCalls = c.remoteCalls ∧
    (generate_answer env c q).2.llm_disabled = true ∧
    (generate_answer env c q).1 =
      (match lookupCache c.cache (normalize_key q) with
       | some a => .ok a
       | none => generate_rule_based_answer c.frame q) := by
  cases hm : lookupCache c.cache (normalize_key q) with
  | some b =>
    rw [ga_cache_hit env c q b hm]
    exact ⟨rfl, h, rfl⟩
  | none =>
    have hcond : (c.use_llm && !c.llm_disabled && c.hasKey) = false := by
      simp [h]
    rw [ga_notAttempt env c q hcond hm]
    refine ⟨finishRule_remoteCalls _ _ _, ?_, finishRule_fst _ _ _⟩
    rw [finishRule_llm_disabled]
    exact h

theorem runCalls_disabled (env : Nat → RemoteResult) :
    ∀ (qs : List String) (c : Chain), c.llm_disabled = true →
      (runCalls env c qs).llm_disabled = true ∧
      (runCalls env c qs).remoteCalls = c.remoteCalls := by
  intro qs
  induction qs with
  | nil =>
    intro c h
    exact ⟨h, rfl⟩
  | cons q t ih =>
    intro c h
    have hstep := ga_disabled_step env c q h
    have hrec := ih ((generate_answer env c q).2) hstep.2.1
    simp only [runCalls, List.foldl_cons] at hrec ⊢
    exact ⟨hrec.1, hrec.2.trans hstep.1⟩

theorem occursAt_zero (prev : Option Char) (l : List Char) :
    occursAt prev l 0 = matchAt prev l := by
  simp [occursAt, prevAt]

theorem prevAt_succ (prev : Option Char) (c : Char) (rest : List Char) (i : Nat) :
    prevAt prev (c :: rest) (i + 1) = prevAt (some c) rest i := by
  cases i with
  | zero => simp [prevAt]
  | succ n => simp [prevAt]

theorem occursAt_succ (prev : Option Char) (c : Char) (rest : List Char) (i : Nat) :
    occursAt prev (c :: rest) (i + 1) = occursAt (some c) rest i := by
  simp [occursAt, prevAt_succ, List.drop_succ_cons]

theorem occursAt_ge_len (prev : Option Char) (l : List Char) (i : Nat)
    (h : l.length ≤ i) : occursAt prev l i = false := by
  rw [occursAt, List.drop_eq_nil_of_le h]
  rfl

theorem searchYearAux_none_of_no_match :
    ∀ (l : List Char) (prev : Option Char),
      (∀ i, occursAt prev l i = false) → searchYearAux prev l = none := by
  intro l
  induction l with
  | nil => intro prev _; rfl
  | cons c rest ih =>
    intro prev h
    have h0 := h 0
    rw [occursAt_zero] at h0
    simp only [searchYearAux, h0, Bool.false_eq_true, if_false]
    exact ih (some c) (fun i => by
      rw [← occursAt_succ prev c rest i]; exact h (i + 1))

theorem searchYearAux_first :
    ∀ (l : List Char) (prev : Option Char) (i : Nat),
      occursAt prev l i = true →
      (∀ j, j < i → occursAt prev l j = false) →
      searchYearAux prev l = some (yearOf (l.drop i)) := by
  intro l
  induction l with
  | nil =>
    intro prev i hi _
    rw [occursAt] at hi
    simp [matchAt] at hi
  | cons c rest ih =>
    intro prev i hi hj
    cases i with
    | zero =>
      rw [occursAt_zero] at hi
      simp only [searchYearAux, hi, if_true, List.drop_zero]
    | succ n =>
      have h0 := hj 0 (Nat.succ_pos n)
      rw [occursAt_zero] at h0
      simp only [searchYearAux, h0, Bool.false_eq_true, if_false]
      rw [List.drop_succ_cons]
      exact ih (some c) n (by rw [← occursAt_succ]; exact hi)
        (fun j hjn => by rw [← occursAt_succ]; exact hj (j + 1) (Nat.succ_lt_succ hjn))

theorem matchAt_shape (prev : Option Char) (l : List Char)
    (h : matchAt prev l = true) :
    ∃ d1 d2 rest, l = '2' :: '0' :: d1 :: d2 :: rest := by
  match l with
  | [] => simp [matchAt] at h
  | [a] => simp [matchAt] at h
  | [a, b] => simp [matchAt] at h
  | [a, b, d] => simp [matchAt] at h
  | a :: b :: d1 :: d2 :: rest =>
    refine ⟨d1, d2, rest, ?_⟩
    simp only [matchAt, Bool.and_eq_true, beq_iff_eq] at h
    rw [h.1.1.1.1.1, h.1.1.1.1.2]

theorem searchYearAux_ge (l : List Char) : ∀ (prev : Option Char) (y : Int),
    searchYearAux prev l = some y → 1472 ≤ y := by
  induction l with
  | nil => intro prev y h; simp [searchYearAux] at h
  | cons c rest ih =>
    intro prev y h
    by_cases hma : matchAt prev (c :: rest) = true
    · simp only [searchYearAux, hma, if_true, Option.some.injEq] at h
      subst h
      obtain ⟨d1, d2, r2, hshape⟩ := matchAt_shape prev _ hma
      rw [hshape]
      simp only [yearOf]
      have h1 : (0 : Int) ≤ (d1.toNat : Int) := Int.ofNat_nonneg _
      have h2 : (0 : Int) ≤ (d2.toNat : Int) := Int.ofNat_nonneg _
      omega
    · have hma' : matchAt prev (c :: rest) = false := by simpa using hma
      simp only [searchYearAux, hma', Bool.false_eq_true, if_false] at h
      exact ih (some c) y h

theorem parse_year_pos (q : String) (y : Int) (h : parse_year q = some y) :
    0 < y :=
  lt_of_lt_of_le (by norm_num) (searchYearAux_ge q.data none y h)

theorem foldl_max_mem : ∀ (t : List Int) (a : Int), t.foldl max a ∈ a :: t := by
  intro t
  induction t with
  | nil => intro a; simp
  | cons b t ih =>
    intro a
    simp only [List.foldl_cons]
    rcases List.mem_cons.mp (ih (max a b)) with h1 | h2
    · rcases max_choice a b with hm | hm
      · rw [h1, hm]; exact List.mem_cons_self a (b :: t)
      · rw [h1, hm]; exact List.mem_cons_of_mem a (List.mem_cons_self b t)
    · exact List.mem_cons_of_mem a (List.mem_cons_of_mem b h2)

theorem le_foldl_max_init : ∀ (t : List Int) (a : Int), a ≤ t.foldl max a := by
  intro t
  induction t with
  | nil => intro a; exact le_refl a
  | cons b t ih =>
    intro a
    simp only [List.foldl_cons]
    exact le_trans (le_max_left a b) (ih (max a b))

theorem le_foldl_max_of_mem : ∀ (t : List Int) (a x : Int), x ∈ t → x ≤ t.foldl max a := by
  intro t
  induction t with
  | nil => intro a x hx; simp at hx
  | cons b t ih =>
    intro a x hx
    simp only [List.foldl_cons]
    rcases List.mem_cons.mp hx with h1 | h2
    · subst h1; exact le_trans (le_max_right a x) (le_foldl_max_init t _)
    · exact ih (max a b) x h2

theorem listMax_mem (l : List Int) (h : l ≠ []) : listMax l ∈ l := by
  cases l with
  | nil => exact absurd rfl h
  | cons a t =>
    simp only [listMax, List.headD_cons, List.foldl_cons, max_self]
    exact foldl_max_mem t a

theorem le_listMax (l : List Int) (x : Int) (hx : x ∈ l) : x ≤ listMax l := by
  cases l with
  | nil => simp at hx
  | cons a t =>
    simp only [listMax, List.headD_cons, List.foldl_cons, max_self]
    rcases List.mem_cons.mp hx with h1 | h2
    · subst h1; exact le_foldl_max_init t x
    · exact le_foldl_max_of_mem t a x h2
/-! ## Claim theorems -/

/-- Claim C1: the remote-disabled flag becomes true after a call exactly
when it was already true or this call sent a remote request that came
back rate-limited (HTTP 429) — so it is set once, on the first 429, and
never reset; and on a disabled instance every answer call leaves the
remote invocation count frozen and returns the cached or rule-based
result, over any sequence of subsequent calls. -/
theorem claim_c1_rate_limit_sticky (env : Nat → RemoteResult) (c : Chain)
    (q : String) :
    ((generate_answer env c q).2.llm_disabled =
      (c.llm_disabled || (remoteInvoked c q && isRateLimited (env c.remoteCalls)))) ∧
    (c.llm_disabled = true →
      (generate_answer env c q).2.remoteCalls = c.remoteCalls ∧
      (generate_answer env c q).2.llm_disabled = true ∧
      (generate_answer env c q).1 =
        (match lookupCache c.cache (normalize_key q) with
         | some a => .ok a
         | none => generate_rule_based_answer c.frame q)) ∧
    (c.llm_disabled = true → ∀ qs : List String,
      (runCalls env c qs).llm_disabled = true ∧
      (runCalls env c qs).remoteCalls = c.remoteCalls) :=
  ⟨ga_disabled_eq env c q,
   fun h => ga_disabled_step env c q h,
   fun h qs => runCalls_disabled env qs c h⟩

theorem claim_c1_witness :
    disabledChain.llm_disabled = true ∧
    (runCalls (envConst .rateLimited) disabledChain
        ["what was revenue in 2020", "best year for revenue"]).remoteCalls =
      disabledChain.remoteCalls ∧
    (generate_answer (envConst .rateLimited) disabledChain
        "what was revenue in 2020").1 =
      generate_rule_based_answer disabledChain.frame "what was revenue in 2020" :=
  ⟨rfl,
   ((claim_c1_rate_limit_sticky (envConst .rateLimited) disabledChain "x").2.2 rfl
     ["what was revenue in 2020", "best year for revenue"]).2,
   ((claim_c1_rate_limit_sticky (envConst .rateLimited) disabledChain
       "what was revenue in 2020").2.1 rfl).2.2⟩

/-- Claim C2: for question texts equal after trim and case-fold, a first
successful answer is returned verbatim by the second call with no state
change at all (the cache hit is exact string equality on the normalized
key), and at most one remote invocation happens across the two calls. -/
theorem claim_c2_cache_idempotent (env : Nat → RemoteResult) (c : Chain)
    (q1 q2 : String) (h : normalize_key q1 = normalize_key q2) :
    (∀ a : String, (generate_answer env c q1).1 = .ok a →
       generate_answer env (generate_answer env c q1).2 q2 =
         (.ok a, (generate_answer env c q1).2)) ∧
    (generate_answer env (generate_answer env c q1).2 q2).2.remoteCalls ≤
      c.remoteCalls + 1 := by
  constructor
  · intro a ha
    rcases hp : generate_answer env c q1 with ⟨r1, c1⟩
    rw [hp] at ha
    simp only at ha
    subst ha
    have hcached := ga_ok_cached env c q1 a c1 hp
    rw [h] at hcached
    show generate_answer env c1 q2 = (.ok a, c1)
    exact ga_cache_hit env c1 q2 a hcached
  · rcases hp : generate_answer env c q1 with ⟨r1, c1⟩
    show (generate_answer env c1 q2).2.remoteCalls ≤ c.remoteCalls + 1
    cases r1 with
    | ok a =>
      have hcached := ga_ok_cached env c q1 a c1 hp
      rw [h] at hcached
      rw [ga_cache_hit env c1 q2 a hcached]
      have hle := ga_remoteCalls_le env c q1
      rw [hp] at hle
      exact hle
    | error e =>
      have hc1 : c1 = c := ga_err_state env c q1 e c1 hp
      subst hc1
      exact ga_remoteCalls_le env c1 q2

theorem claim_c2_witness :
    normalize_key "  REVENUE in 2020 " = normalize_key "revenue in 2020" ∧
    (generate_answer (envConst .failure)
        (generate_answer (envConst .failure) (ruleOnlyChain sampleFrame)
          "  REVENUE in 2020 ").2
        "revenue in 2020").2.remoteCalls ≤
      (ruleOnlyChain sampleFrame).remoteCalls + 1 :=
  ⟨by decide,
   (claim_c2_cache_idempotent (envConst .failure) (ruleOnlyChain sampleFrame)
     "  REVENUE in 2020 " "revenue in 2020" (by decide)).2⟩

/-- Claim C10: a cache hit on the normalized key returns exactly the
stored string with the instance state untouched (hence no parsing,
retrieval or remote work); in particular, after any successful first
resolution — including a rule-based fallback after a transient remote
failure — repeating the question returns the stored text for ANY remote
behavior, so the remote path is never retried for it. -/
theorem claim_c10_cache_hit_frozen :
    (∀ (env : Nat → RemoteResult) (c : Chain) (q a : String),
       lookupCache c.cache (normalize_key q) = some a →
       generate_answer env c q = (.ok a, c)) ∧
    (∀ (env env2 : Nat → RemoteResult) (c : Chain) (q a : String),
       (generate_answer env c q).1 = .ok a →
       generate_answer env2 (generate_answer env c q).2 q =
         (.ok a, (generate_answer env c q).2)) := by
  constructor
  · exact fun env c q a h => ga_cache_hit env c q a h
  · intro env env2 c q a ha
    rcases hp : generate_answer env c q with ⟨r1, c1⟩
    rw [hp] at ha
    simp only at ha
    subst ha
    show generate_answer env2 c1 q = (.ok a, c1)
    exact ga_cache_hit env2 c1 q a (ga_ok_cached env c q a c1 hp)

theorem claim_c10_witness :
    lookupCache cachedChain.cache (normalize_key "  REVENUE in 2020  ") =
      some "cached text" ∧
    generate_answer (envConst .rateLimited) cachedChain "  REVENUE in 2020  " =
      (.ok "cached text", cachedChain) :=
  ⟨by decide,
   claim_c10_cache_hit_frozen.1 (envConst .rateLimited) cachedChain
     "  REVENUE in 2020  " "cached text" (by decide)⟩

/-- Claim C3: when the keyword resolves to a column, get_value with a
year yields a single scalar exactly when the year filter matches one row;
several matching rows yield the series of exactly those rows in dataset
order; and no year yields the full column in dataset order. -/
theorem claim_c3_get_value_shapes (f : Frame) (kw col tc : String) (y : Int)
    (hcol : find_column f kw = some col) (htc : firstTemporalCol f = some tc) :
    ((yearMatches f tc y).length = 1 →
       get_value f kw (some y) =
         .ok (some (.scalar (colProj f col ((yearMatches f tc y).headD []))))) ∧
    (2 ≤ (yearMatches f tc y).length →
       get_value f kw (some y) =
         .ok (some (.series ((yearMatches f tc y).map (colProj f col))))) ∧
    (∀ v : Int, get_value f kw (some y) = .ok (some (.scalar v)) →
       (yearMatches f tc y).length = 1) ∧
    get_value f kw none = .ok (some (.series (f.rows.map (colProj f col)))) := by
  have hfil : filter_by_year f y = .ok (yearMatches f tc y) := by
    simp [filter_by_year, htc, yearMatches]
  refine ⟨?_, ?_, ?_, ?_⟩
  · intro h1
    obtain ⟨r, hr⟩ := List.length_eq_one.mp h1
    rw [hr] at hfil
    simp [get_value, hcol, hfil, hr, colProj]
  · intro h2
    have hne : (yearMatches f tc y).isEmpty = false := by
      cases hm : yearMatches f tc y with
      | nil => rw [hm] at h2; simp at h2
      | cons a t => simp
    have hb : (((yearMatches f tc y).map
        (fun r => r.getD (List.findIdx (fun x => x == col) f.cols) 0)).length == 1) =
        false := by
      rw [List.length_map]
      simp only [beq_eq_false_iff_ne]
      omega
    simp only [get_value, hcol, hfil, hne, Bool.false_eq_true, if_false, hb]
    rfl
  · intro v hv
    simp only [get_value, hcol, hfil] at hv
    split at hv
    · simp at hv
    · split at hv
      · rename_i hlen1
        rw [beq_iff_eq, List.length_map] at hlen1
        exact hlen1
      · simp at hv
  · simp [get_value, hcol, colValsAt, colProj]

theorem claim_c3_witness :
    find_column sampleFrame "Revenue" = some "Revenue" ∧
    firstTemporalCol sampleFrame = some "Year" ∧
    get_value sampleFrame "Revenue" (some 2022) = .ok (some (.scalar 300000)) :=
  ⟨by decide, by decide,
   ((claim_c3_get_value_shapes sampleFrame "Revenue" "Revenue" "Year" 2022
       (by decide) (by decide)).1 (by decide)).trans (by decide)⟩

/-- Claim C4 counterexample: the text "compare revenue profit and asset"
contains both "profit" and "asset", yet parse_metric returns Revenue and
not NetIncome, because the revenue/sales rule fires first — refuting the
claim's universal statement over all texts containing profit and asset. -/
theorem claim_c4_counterexample :
    strContains (lowerStr "compare revenue profit and asset") "profit" = true ∧
    strContains (lowerStr "compare revenue profit and asset") "asset" = true ∧
    parse_metric "compare revenue profit and asset" = some "Revenue" ∧
    ¬ parse_metric "compare revenue profit and asset" = some "Net_Income" :=
  ⟨by decide, by decide, by decide, by decide⟩

/-- Claim C4 (amended): the metric chain is first-match-wins in the fixed
order, so a text containing both "profit" and "asset" but neither
"revenue" nor "sales" parses to Net_Income; and a text containing
"profit" never parses to Total_Assets. -/
theorem claim_c4_metric_priority :
    (∀ q : String, strContains (lowerStr q) "profit" = true →
       strContains (lowerStr q) "asset" = true →
       strContains (lowerStr q) "revenue" = false →
       strContains (lowerStr q) "sales" = false →
       parse_metric q = some "Net_Income") ∧
    (∀ q : String, strContains (lowerStr q) "profit" = true →
       parse_metric q ≠ some "Total_Assets") := by
  constructor
  · intro q hp ha hr hs
    simp [parse_metric, hp, hr, hs]
  · intro q hp
    simp only [parse_metric]
    by_cases hr : strContains (lowerStr q) "revenue" = true
    · simp [hr]
    · by_cases hs : strContains (lowerStr q) "sales" = true
      · simp [hs]
      · simp [show strContains (lowerStr q) "revenue" = false by simpa using hr,
          show strContains (lowerStr q) "sales" = false by simpa using hs, hp]

theorem claim_c4_witness :
    strContains (lowerStr "profit and asset") "profit" = true ∧
    parse_metric "profit and asset" = some "Net_Income" ∧
    parse_metric "profit and asset" ≠ some "Total_Assets" :=
  ⟨by decide,
   claim_c4_metric_priority.1 "profit and asset" (by decide) (by decide)
     (by decide) (by decide),
   claim_c4_metric_priority.2 "profit and asset" (by decide)⟩

/-- Claim C5 counterexample: "in2019" contains exactly one 4-digit
substring, 2019, of the form 20dd, yet parse extracts no year, because
the source regex requires word boundaries around the year and the
preceding n is a word character — refuting the claim as stated. -/
theorem claim_c5_counterexample :
    fourDigitSubs "in2019".data = [['2', '0', '1', '9']] ∧
    parse_year "in2019" = none :=
  ⟨by decide, by decide⟩

/-- Claim C5 (amended): year extraction is the regex search for a
word-boundary-delimited 20dd group: if no position of the text carries a
delimited 20dd occurrence the year is none, and otherwise the first
(leftmost) such occurrence determines the extracted year. -/
theorem claim_c5_year_regex (q : String) :
    ((∀ i, occursAt none q.data i = false) → parse_year q = none) ∧
    (∀ i, occursAt none q.data i = true →
       (∀ j, j < i → occursAt none q.data j = false) →
       parse_year q = some (yearOf (q.data.drop i))) :=
  ⟨searchYearAux_none_of_no_match q.data none,
   fun i hi hj => searchYearAux_first q.data none i hi hj⟩

theorem claim_c5_witness :
    occursAt none "revenue in 2019".data 11 = true ∧
    parse_year "revenue in 2019" = some 2019 ∧
    parse_year "best year" = none :=
  ⟨by decide,
   ((claim_c5_year_regex "revenue in 2019").2 11 (by decide) (by decide)).trans
     (by decide),
   (claim_c5_year_regex "best year").1 (fun i => by
     by_cases h : i < 9
     · have hall : ∀ j, j < 9 → occursAt none "best year".data j = false := by decide
       exact hall i h
     · refine occursAt_ge_len none _ i ?_
       have hlen : ("best year".data.length) = 9 := by decide
       omega)⟩

/-- Claim C6: on a series answer whose question carries a best-superlative
keyword, the formatter reports the maximum value of the series and,
comma-joined, exactly the temporal keys whose value attains it; on the
2019..2023 revenue sample, the full pipeline answers "best year for
revenue" with year 2022 and value 300,000 dollars. -/
theorem claim_c6_best_superlative :
    (∀ (f : Frame) (metric : String) (vals : List Int) (year : Option Int)
       (q : String),
       vals ≠ [] → f.cols ≠ [] → vals.length = (colValsAt f 0).length →
       containsAnyWord (lowerStr q) bestWords = true →
       ∃ (m : Int) (ys : List Int), format_answer f metric (.series vals) year q =
           .ok ("The best year(s) for " ++ metricDisplay metric ++ " was " ++
             String.intercalate ", " (ys.map toString) ++ " with $" ++
             intComma m ++ ".") ∧
         m ∈ vals ∧ (∀ v ∈ vals, v ≤ m) ∧
         (∀ k : Int, k ∈ ys ↔ (k, m) ∈ (colValsAt f 0).zip vals)) ∧
    (generate_answer (envConst .failure) (ruleOnlyChain sampleFrame)
        "best year for revenue").1 =
      .ok "The best year(s) for Revenue was 2022 with $300,000." := by
  constructor
  · intro f metric vals year q hv hc hlen hbest
    refine ⟨listMax vals,
      (((colValsAt f 0).zip vals).filter (fun p => p.2 == listMax vals)).map
        (fun p => p.1), ?_, listMax_mem vals hv,
      fun v hv2 => le_listMax vals v hv2, ?_⟩
    · simp only [format_answer]
      have h0 : (vals.length == 0) = false := by
        cases vals with
        | nil => exact absurd rfl hv
        | cons a t => simp
      cases hcl : f.cols with
      | nil => exact absurd hcl hc
      | cons c0 ct =>
        have hb : (vals.length != (colValsAt f 0).length) = false := by
          simp [hlen]
        simp only [h0, Bool.false_eq_true, if_false, hcl, List.head?_cons, hb,
          hbest, Bool.true_or, if_true]
    · intro k
      constructor
      · intro hk
        rw [List.mem_map] at hk
        obtain ⟨p, hp, hpk⟩ := hk
        rw [List.mem_filter] at hp
        rcases p with ⟨pk, pv⟩
        simp only at hpk
        subst hpk
        have hpv : pv = listMax vals := by simpa using hp.2
        subst hpv
        exact hp.1
      · intro hk
        rw [List.mem_map]
        refine ⟨(k, listMax vals), ?_, rfl⟩
        rw [List.mem_filter]
        exact ⟨hk, by simp⟩
  · decide

theorem claim_c6_witness :
    (([100000, 200000, 150000, 300000, 250000] : List Int) ≠ []) ∧
    (∃ (m : Int) (ys : List Int), format_answer sampleFrame "Revenue"
        (.series [100000, 200000, 150000, 300000, 250000]) none
        "best year for revenue" =
          .ok ("The best year(s) for " ++ metricDisplay "Revenue" ++ " was " ++
            String.intercalate ", " (ys.map toString) ++ " with $" ++
            intComma m ++ ".") ∧
      m ∈ ([100000, 200000, 150000, 300000, 250000] : List Int) ∧
      (∀ v ∈ ([100000, 200000, 150000, 300000, 250000] : List Int), v ≤ m) ∧
      (∀ k : Int, k ∈ ys ↔ (k, m) ∈ (colValsAt sampleFrame 0).zip
        [100000, 200000, 150000, 300000, 250000])) :=
  ⟨by decide,
   claim_c6_best_superlative.1 sampleFrame "Revenue"
     [100000, 200000, 150000, 300000, 250000] none "best year for revenue"
     (by decide) (by decide) (by decide) (by decide)⟩

/-- Claim C7 counterexample: on the five-row sample dataset, formatting
the single-row series produced by a year filter that matched exactly one
row raises ValueError (pandas length-mismatch when re-indexing by the
full first column), while formatting the corresponding scalar produces
the single-value sentence — the two paths do not produce the same
sentence, refuting the round-trip claim. -/
theorem claim_c7_counterexample :
    format_answer sampleFrame "Revenue" (.series [300000]) (some 2022)
        "what was revenue in 2022" = .error .valueError ∧
    format_answer sampleFrame "Revenue" (.scalar 300000) (some 2022)
        "what was revenue in 2022" = .ok "The Revenue in 2022 was $300,000." ∧
    format_answer sampleFrame "Revenue" (.series [300000]) (some 2022)
        "what was revenue in 2022" ≠
      format_answer sampleFrame "Revenue" (.scalar 300000) (some 2022)
        "what was revenue in 2022" :=
  ⟨by decide, by decide, by decide⟩

/-- Claim C7 (amended): the pipeline never hands the formatter a
single-row series — a year filter matching exactly one row returns the
scalar from get_value — and formatting a one-element series directly on a
dataset that does not have exactly one row fails with ValueError instead
of producing the scalar sentence. -/
theorem claim_c7_single_row (f : Frame) (kw metric q : String) (y : Int)
    (v : Int) (year : Option Int) (vals : List Int)
    (hser : get_value f kw (some y) = .ok (some (.series vals)))
    (hc : f.cols ≠ []) (hr : f.rows.length ≠ 1) :
    vals.length ≠ 1 ∧
    format_answer f metric (.series [v]) year q = .error .valueError := by
  constructor
  · cases hcol : find_column f kw with
    | none => simp [get_value, hcol] at hser
    | some col =>
      cases hf : filter_by_year f y with
      | error e => simp [get_value, hcol, hf] at hser
      | ok filtered =>
        simp only [get_value, hcol, hf] at hser
        split at hser
        · simp at hser
        · split at hser
          · simp at hser
          · rename_i hcond2
            simp only [Except.ok.injEq, Option.some.injEq, Value.series.injEq] at hser
            subst hser
            simpa using hcond2
  · simp only [format_answer]
    cases hcl : f.cols with
    | nil => exact absurd hcl hc
    | cons c0 ct =>
      have hb : (((1 : Nat) != (colValsAt f 0).length)) = true := by
        rw [colValsAt_length]
        simp only [bne_iff_ne, ne_eq]
        omega
      simp [hcl, hb]

theorem claim_c7_witness :
    get_value ⟨["Year", "Revenue"], [[2019, 5], [2019, 7]]⟩ "Revenue" (some 2019) =
      .ok (some (.series [5, 7])) ∧
    (([5, 7] : List Int).length ≠ 1 ∧
      format_answer ⟨["Year", "Revenue"], [[2019, 5], [2019, 7]]⟩ "Revenue"
        (.series [5]) (some 2019) "" = .error .valueError) :=
  ⟨by decide,
   claim_c7_single_row ⟨["Year", "Revenue"], [[2019, 5], [2019, 7]]⟩ "Revenue"
     "Revenue" "" 2019 5 (some 2019) [5, 7] (by decide) (by decide) (by decide)⟩

/-- Claim C8: when the parsed metric is recognized and the parsed year
matches zero dataset rows, the rule-based answer call returns the
sentence "I couldn't find data for metric in year." (recovering
NotFound locally as plain language), caches it, and raises nothing. -/
theorem claim_c8_no_data_sentence (env : Nat → RemoteResult) (c : Chain)
    (q metric : String) (y : Int)
    (hpm : parse_metric q = some metric) (hpy : parse_year q = some y)
    (hfil : filter_by_year c.frame y = .ok [])
    (hmiss : lookupCache c.cache (normalize_key q) = none)
    (hllm : c.use_llm = false) :
    generate_answer env c q =
      (.ok ("I couldn't find data for " ++ metric ++ " in " ++ toString y ++ "."),
       { c with cache := (normalize_key q,
           "I couldn't find data for " ++ metric ++ " in " ++ toString y ++ ".") ::
           c.cache }) := by
  have hcond : (c.use_llm && !c.llm_disabled && c.hasKey) = false := by
    simp [hllm]
  rw [ga_notAttempt env c q hcond hmiss]
  have hgv : get_value c.frame metric (some y) = .ok none := by
    cases hc : find_column c.frame metric with
    | none => simp [get_value, hc]
    | some col => simp [get_value, hc, hfil]
  have hy0 : (y == 0) = false := by
    have hpos := parse_year_pos q y hpy
    simp only [beq_eq_false_iff_ne, ne_eq]
    omega
  have hrb : generate_rule_based_answer c.frame q =
      .ok ("I couldn't find data for " ++ metric ++ " in " ++ toString y ++ ".") := by
    simp only [generate_rule_based_answer, parse_query, hpm, hpy, hgv, hy0,
      Bool.false_eq_true, if_false]
    simp [String.append_assoc]
  exact finishRule_ok _ _ _ _ hrb

theorem claim_c8_witness :
    parse_metric "revenue in 2024" = some "Revenue" ∧
    filter_by_year sampleFrame 2024 = .ok [] ∧
    (generate_answer (envConst .failure) (ruleOnlyChain sampleFrame)
        "revenue in 2024").1 =
      .ok "I couldn't find data for Revenue in 2024." := by
  refine ⟨by decide, by decide, ?_⟩
  have h := claim_c8_no_data_sentence (envConst .failure)
    (ruleOnlyChain sampleFrame) "revenue in 2024" "Revenue" 2024
    (by decide) (by decide) (by decide) rfl rfl
  rw [h]
  rfl

/-- Claim C9 counterexample: on a dataset with no temporal-candidate
column, the query "revenue in 2019" (which parses a metric and a year)
does NOT propagate an error: its metric keyword resolves to no column, so
get_value returns None before any temporal filtering and the call returns
the "no data" sentence — refuting the claim's universal statement over
all metric-and-year queries. -/
theorem claim_c9_counterexample :
    parse_query "revenue in 2019" = (some "Revenue", some 2019) ∧
    firstTemporalCol ⟨["Quarter"], [[1]]⟩ = none ∧
    (generate_answer (envConst .failure) (ruleOnlyChain ⟨["Quarter"], [[1]]⟩)
        "revenue in 2019").1 = .ok "I couldn't find data for Revenue in 2019." :=
  ⟨by decide, by decide, by decide⟩

/-- Claim C9 (amended): when the dataset has none of the temporal
candidate columns Year, year, DATE, Date, any uncached query whose metric
resolves to an actual column and whose year parses raises ValueError out
of the answer call — in any remote configuration — with the instance
state unchanged and nothing cached, unlike the NotFound case, which is
recovered as an ok sentence. -/
theorem claim_c9_no_temporal_column (env : Nat → RemoteResult) (c : Chain)
    (q metric col : String) (y : Int)
    (hpm : parse_metric q = some metric) (hpy : parse_year q = some y)
    (hnt : firstTemporalCol c.frame = none)
    (hcol : find_column c.frame metric = some col)
    (hmiss : lookupCache c.cache (normalize_key q) = none) :
    generate_answer env c q = (.error .valueError, c) := by
  have hgv : get_value c.frame metric (some y) = .error .valueError := by
    simp [get_value, hcol, filter_by_year, hnt]
  have hrb : generate_rule_based_answer c.frame q = .error .valueError := by
    simp only [generate_rule_based_answer, parse_query, hpm, hpy, hgv]
  by_cases hcond : (c.use_llm && !c.llm_disabled && c.hasKey) = true
  · have hb : build_data_context c.frame q = .error .valueError := by
      simp only [build_data_context, parse_query, hpm, hpy, hgv]
    rw [ga_attempt env c q hcond hmiss]
    rw [goa_ctx_err env c q _ hb]
    dsimp only
    rw [show (PyErr.valueError == PyErr.http429) = false from rfl]
    simp only [Bool.false_eq_true, if_false]
    exact finishRule_err _ _ _ _ hrb
  · have hc2 : (c.use_llm && !c.llm_disabled && c.hasKey) = false := by
      simpa using hcond
    rw [ga_notAttempt env c q hc2 hmiss]
    exact finishRule_err _ _ _ _ hrb

theorem claim_c9_witness :
    firstTemporalCol ⟨["Quarter", "Revenue"], [[1, 5]]⟩ = none ∧
    find_column ⟨["Quarter", "Revenue"], [[1, 5]]⟩ "Revenue" = some "Revenue" ∧
    generate_answer (envConst .failure)
        (ruleOnlyChain ⟨["Quarter", "Revenue"], [[1, 5]]⟩) "revenue in 2019" =
      (.error .valueError, ruleOnlyChain ⟨["Quarter", "Revenue"], [[1, 5]]⟩) :=
  ⟨by decide, by decide,
   claim_c9_no_temporal_column (envConst .failure)
     (ruleOnlyChain ⟨["Quarter", "Revenue"], [[1, 5]]⟩) "revenue in 2019"
     "Revenue" "Revenue" 2019 (by decide) (by decide) (by decide) (by decide) rfl⟩

end FinQA
